import Mathlib

/-!
Shallow embedding of the Pro Stock Screener dashboard (`app.py`):
the bounded session-state logs, the websocket trade classifier
(`on_message`), and the 0DTE gamma-exposure / unusual-options pipeline
(`compute_0dte_gex_and_unusual`), together with theorems checking the
natural-language specification against this embedding.
-/

set_option maxRecDepth 8000

attribute [local semireducible] Rat.add Rat.mul Rat.sub Rat.inv Rat.ofScientific

namespace StockScreener

/-! ## Bounded logs (Python `lst.append(x)` followed by `lst = lst[-cap:]`) -/

/-- Python slice `l[-n:]`: the last `n` elements of `l` (all of `l` when
`l.length ≤ n`), in order. -/
def lastN (n : ℕ) (l : List α) : List α := l.drop (l.length - n)

/-- One append-then-trim step on a capacity-`cap` log, as performed on
`alert_log` (cap 50), `live_trades` (cap 200) and `dark_pool_prints` (cap 100). -/
def boundedAppend (cap : ℕ) (l : List α) (x : α) : List α := lastN cap (l ++ [x])

/-- An entry of the alert log: `{"time": ts, "title": title, "message": message}`. -/
structure AlertEntry where
  time : String
  title : String
  message : String
deriving DecidableEq

/-- `trigger_alert`: append the entry to `st.session_state.alert_log` and trim
to the last 50 entries (the toast side effect is external I/O, not modelled). -/
def trigger_alert (log : List AlertEntry) (e : AlertEntry) : List AlertEntry :=
  boundedAppend 50 log e

/-! ## Trade ingest (`on_message` inside `start_polygon_websocket`) -/

/-- One incoming feed object: fields `ev`, `sym`, `p`, `s`, `t`, `x` of a
Polygon trade message. `x` is read with `msg.get("x")`, so it may be absent. -/
structure TradeMsg where
  ev : String
  sym : String
  p : ℚ
  s : ℕ
  t : ℤ
  x : Option ℤ
deriving DecidableEq

/-- The dict appended to the logs. `timeMillis` stands for the raw timestamp
from which the formatted `Time` string is derived; `price`/`size` likewise
stand for the values being string-formatted. -/
structure TradeRecord where
  timeMillis : ℤ
  symbol : String
  price : ℚ
  size : ℕ
  venue : String
deriving DecidableEq

/-- Build the trade record, with `Venue = "Dark Pool" if msg.get("x") == 4 else "Lit"`. -/
def mkTradeRecord (m : TradeMsg) : TradeRecord :=
  { timeMillis := m.t
    symbol := m.sym
    price := m.p
    size := m.s
    venue := if m.x = some 4 then "Dark Pool" else "Lit" }

/-- The two session-state logs written by the websocket callback. -/
structure FeedState where
  live_trades : List TradeRecord
  dark_pool_prints : List TradeRecord
deriving DecidableEq

/-- Processing of one message object by `on_message`: events with
`ev == "T"` and `s >= 15000` are appended to `live_trades` (trimmed to 200)
and, when `x == 4`, also to `dark_pool_prints` (trimmed to 100). -/
def on_message_step (st : FeedState) (m : TradeMsg) : FeedState :=
  if m.ev = "T" ∧ 15000 ≤ m.s then
    if m.x = some 4 then
      { live_trades := boundedAppend 200 st.live_trades (mkTradeRecord m)
        dark_pool_prints := boundedAppend 100 st.dark_pool_prints (mkTradeRecord m) }
    else
      { live_trades := boundedAppend 200 st.live_trades (mkTradeRecord m)
        dark_pool_prints := st.dark_pool_prints }
  else st

/-- `on_message` iterates `on_message_step` over the objects of one frame. -/
def on_message (st : FeedState) (msgs : List TradeMsg) : FeedState :=
  msgs.foldl on_message_step st

/-! ## 0DTE GEX + unusual options (`compute_0dte_gex_and_unusual`) -/

/-- Contract side, set by `calls.assign(type="Call")` / `puts.assign(type="Put")`. -/
inductive OptType where
  | Call
  | Put
deriving DecidableEq

/-- One row of the concatenated chain DataFrame.  `openInterest` and `volume`
may be absent (the code reads them as `row["openInterest"] or 0`). -/
structure OptionContract where
  strike : ℚ
  type : OptType
  impliedVolatility : ℚ
  openInterest : Option ℚ
  volume : Option ℚ
deriving DecidableEq

/-- `oi = row["openInterest"] or 0`. -/
def oiOf (c : OptionContract) : ℚ := c.openInterest.getD 0

/-- `vol = row["volume"] or 0`. -/
def volOf (c : OptionContract) : ℚ := c.volume.getD 0

/-- The `continue` guard: `if oi < 10 or iv <= 0.01: continue`. -/
def excluded (c : OptionContract) : Bool :=
  oiOf c < 10 ∨ c.impliedVolatility ≤ 1/100

/-- Time to expiry used by the code: `T = 1 / 365.0`. -/
noncomputable def Tval : ℝ := 1 / 365

/-- Risk-free rate used by the code: `r = 0.05`. -/
noncomputable def rate : ℝ := 5 / 100

/-- Standard normal density `norm.pdf`. -/
noncomputable def normPdf (x : ℝ) : ℝ :=
  Real.exp (-(x ^ 2) / 2) / Real.sqrt (2 * Real.pi)

/-- `d1 = (np.log(spot / K) + (r + 0.5 * iv**2) * T) / (iv * np.sqrt(T))`. -/
noncomputable def d1 (spot K iv : ℚ) : ℝ :=
  (Real.log ((spot : ℝ) / (K : ℝ)) + (rate + (1/2) * (iv : ℝ) ^ 2) * Tval)
    / ((iv : ℝ) * Real.sqrt Tval)

/-- `gamma = norm.pdf(d1) / (spot * iv * np.sqrt(T))`. -/
noncomputable def gammaBS (spot K iv : ℚ) : ℝ :=
  normPdf (d1 spot K iv) / ((spot : ℝ) * (iv : ℝ) * Real.sqrt Tval)

/-- `gex = gamma * oi * 100 * spot**2 * 0.01`, negated for puts. -/
noncomputable def gexOf (spot : ℚ) (c : OptionContract) : ℝ :=
  let g := gammaBS spot c.strike c.impliedVolatility
      * (oiOf c : ℝ) * 100 * (spot : ℝ) ^ 2 * (1/100)
  match c.type with
  | OptType.Put => -g
  | OptType.Call => g

/-- One dict appended to `data` for a contract surviving the filter. -/
structure DataRow where
  strike : ℚ
  type : OptType
  oi : ℚ
  volume : ℚ
  gex : ℝ
  gamma : ℝ
  iv : ℚ

/-- Per-strike aggregate row of `agg` (`groupby("strike").agg(sum, sum)`). -/
structure GexRow where
  strike : ℚ
  gex : ℝ
  oi : ℚ

/-- One dict appended to `unusual`. -/
structure UnusualRow where
  strike : ℚ
  type : OptType
  volume : ℚ
  oi : ℚ
  ratio : ℚ
  price : ℚ
deriving DecidableEq

/-- Python `round(x, 2)` on an exact rational: round `100·x` to the nearest
integer and divide back (tie behaviour is irrelevant to the claims checked). -/
def round2 (q : ℚ) : ℚ := (round (100 * q) : ℤ) / 100

/-- The dict appended to `data` for one contract. -/
noncomputable def mkDataRow (spot : ℚ) (c : OptionContract) : DataRow :=
  { strike := c.strike
    type := c.type
    oi := oiOf c
    volume := volOf c
    gex := gexOf spot c
    gamma := gammaBS spot c.strike c.impliedVolatility
    iv := c.impliedVolatility }

/-- The `data` list built by the loop: one `DataRow` per contract that
survives the `oi < 10 or iv <= 0.01` filter, in chain order. -/
noncomputable def dataRows (spot : ℚ) (cs : List OptionContract) : List DataRow :=
  (cs.filter fun c => !excluded c).map (mkDataRow spot)

/-- Row built by `unusual.append({...})`. -/
def mkUnusualRow (spot : ℚ) (c : OptionContract) : UnusualRow :=
  { strike := c.strike
    type := c.type
    volume := volOf c
    oi := oiOf c
    ratio := round2 (volOf c / oiOf c)
    price := spot }

/-- The `unusual` list built by the loop: the test `vol > oi and oi > 0` runs
after the `continue`, hence only over contracts surviving the OI/IV filter. -/
def unusualRows (spot : ℚ) (cs : List OptionContract) : List UnusualRow :=
  (cs.filter fun c => !excluded c ∧ oiOf c < volOf c ∧ 0 < oiOf c).map
    (mkUnusualRow spot)

/-- The group keys of `gex_df.groupby("strike")`: the distinct strikes of
`data`, in ascending order (pandas sorts group keys). -/
def strikesOf (data : List DataRow) : List ℚ :=
  List.insertionSort (· ≤ ·) (data.map DataRow.strike).dedup

/-- `agg = gex_df.groupby("strike").agg({"gex": "sum", "oi": "sum"}).reset_index()`. -/
noncomputable def aggregate (data : List DataRow) : List GexRow :=
  (strikesOf data).map fun k =>
    { strike := k
      gex := ((data.filter fun d => d.strike = k).map DataRow.gex).sum
      oi := ((data.filter fun d => d.strike = k).map DataRow.oi).sum }

/-- `total_gex = agg["gex"].sum()`. -/
noncomputable def totalGexOf (data : List DataRow) : ℝ :=
  ((aggregate data).map GexRow.gex).sum

/-- `agg.loc[agg["gex"].abs().idxmax()]`: the first row (in `agg` order, i.e.
strike-ascending) whose `|gex|` attains the maximum; `none` on an empty frame
(where pandas `idxmax` raises). -/
noncomputable def maxWallOf : List GexRow → Option GexRow
  | [] => Option.none
  | r :: rs =>
    Option.elim (maxWallOf rs) (some r)
      (fun m => if |r.gex| < |m.gex| then some m else some r)

/-- The input snapshot of `compute_0dte_gex_and_unusual`, as fetched from the
chain provider: current spot, listed expirations, the concatenated
calls++puts chain for today's expiration, and whether the `volume` /
`openInterest` columns are present. -/
structure ChainSnapshot where
  spot : ℚ
  expirations : List String
  contracts : List OptionContract
  hasVolumeColumn : Bool
  hasOpenInterestColumn : Bool

/-- The value returned by `compute_0dte_gex_and_unusual`.  The Python function
returns bare tuples of differing length; the constructors record which
return statement produced the value, and `GexResult.toTuple` recovers the
exact tuple shape. -/
inductive GexResult where
  | noZeroDte (spot : ℚ)
  | noVolOi (spot : ℚ)
  | success (agg : List GexRow) (spot : ℚ) (totalGex : ℝ) (maxWall : GexRow)
      (unusual : Option (List UnusualRow))
  | error (msg : String)

/-- A Python value appearing in one of the returned tuples. -/
inductive PyVal where
  | none
  | rat (q : ℚ)
  | real (r : ℝ)
  | str (s : String)
  | gexRows (l : List GexRow)
  | gexRow (r : GexRow)
  | unusualRows (l : List UnusualRow)

/-- The literal tuple produced by each `return` statement. -/
def GexResult.toTuple : GexResult → List PyVal
  | GexResult.noZeroDte spot =>
      [PyVal.none, PyVal.rat spot, PyVal.str "No 0DTE contracts today", PyVal.none]
  | GexResult.noVolOi spot =>
      [PyVal.none, PyVal.rat spot, PyVal.str "No volume/OI data", PyVal.none]
  | GexResult.success agg spot t w u =>
      [PyVal.gexRows agg, PyVal.rat spot, PyVal.real t, PyVal.gexRow w,
        match u with
        | some l => PyVal.unusualRows l
        | Option.none => PyVal.none]
  | GexResult.error m =>
      [PyVal.none, PyVal.rat 0, PyVal.str ("Error: " ++ m), PyVal.none, PyVal.none]

/-- Whether the result is the success tuple. -/
def GexResult.isSuccess : GexResult → Bool
  | GexResult.success _ _ _ _ _ => true
  | _ => false

/-- Whether the result came from the `except` clause. -/
def GexResult.isError : GexResult → Bool
  | GexResult.error _ => true
  | _ => false

/-- The reason string of a failure result (third tuple component). -/
def GexResult.reasonOf : GexResult → Option String
  | GexResult.noZeroDte _ => some "No 0DTE contracts today"
  | GexResult.noVolOi _ => some "No volume/OI data"
  | GexResult.error m => some ("Error: " ++ m)
  | GexResult.success _ _ _ _ _ => none

/-- The unusual-rows component of a success result. -/
def GexResult.unusualComponent : GexResult → Option (List UnusualRow)
  | GexResult.success _ _ _ _ u => u
  | _ => none

/-- `compute_0dte_gex_and_unusual`, over a given snapshot.  Branches follow
the source: missing today's expiration → 4-tuple; empty chain or missing
columns → 4-tuple; empty `data` list → `pd.DataFrame([]).groupby("strike")`
raises `KeyError('strike')`, caught by the `except` clause → 5-tuple with
spot reported as 0; `idxmax` on an empty aggregate would likewise raise;
otherwise the success 5-tuple. -/
noncomputable def compute_0dte_gex_and_unusual (todayStr : String)
    (s : ChainSnapshot) : GexResult :=
  if ¬ todayStr ∈ s.expirations then GexResult.noZeroDte s.spot
  else if s.contracts.isEmpty ∨ s.hasVolumeColumn = false
      ∨ s.hasOpenInterestColumn = false then GexResult.noVolOi s.spot
  else
    if (dataRows s.spot s.contracts).isEmpty then GexResult.error "'strike'"
    else
      match maxWallOf (aggregate (dataRows s.spot s.contracts)) with
      | Option.none => GexResult.error "attempt to get argmax of an empty sequence"
      | some w =>
          GexResult.success (aggregate (dataRows s.spot s.contracts)) s.spot
            (totalGexOf (dataRows s.spot s.contracts)) w
            (if (unusualRows s.spot s.contracts).isEmpty then Option.none
             else some (unusualRows s.spot s.contracts))

/-! ## Lemmas about the bounded logs -/

theorem lastN_eq_reverse_take (n : ℕ) (l : List α) :
    lastN n l = (l.reverse.take n).reverse := by
  rw [List.take_reverse, List.reverse_reverse, lastN]

theorem length_lastN_le (n : ℕ) (l : List α) : (lastN n l).length ≤ n := by
  simp only [lastN, List.length_drop]
  omega

theorem length_boundedAppend_le (cap : ℕ) (l : List α) (x : α) :
    (boundedAppend cap l x).length ≤ cap :=
  length_lastN_le cap (l ++ [x])

theorem lastN_append_lastN (n : ℕ) (l r : List α) :
    lastN n (lastN n l ++ r) = lastN n (l ++ r) := by
  simp only [lastN_eq_reverse_take, List.reverse_append, List.reverse_reverse]
  congr 1
  rw [@List.take_append_eq_append_take _ r.reverse (l.reverse.take n) n,
    @List.take_append_eq_append_take _ r.reverse l.reverse n, List.take_take,
    Nat.min_eq_left (Nat.sub_le _ _)]

theorem lastN_append_of_le (n : ℕ) (l r : List α) (h : n ≤ r.length) :
    lastN n (l ++ r) = lastN n r := by
  simp only [lastN_eq_reverse_take, List.reverse_append]
  rw [List.take_append_of_le_length (by simpa using h)]

theorem foldl_boundedAppend (cap : ℕ) (init : List α) (items : List α)
    (h : items ≠ []) :
    List.foldl (boundedAppend cap) init items = lastN cap (init ++ items) := by
  induction items generalizing init with
  | nil => exact absurd rfl h
  | cons x xs ih =>
    cases xs with
    | nil => simp [boundedAppend]
    | cons y ys =>
      rw [List.foldl_cons, ih (boundedAppend cap init x) (by simp),
        show boundedAppend cap init x = lastN cap (init ++ [x]) from rfl,
        lastN_append_lastN]
      simp

theorem self_mem_boundedAppend (cap : ℕ) (l : List α) (x : α) (h : 0 < cap) :
    x ∈ boundedAppend cap l x := by
  have hle : (l ++ [x]).length - cap ≤ l.length := by
    simp only [List.length_append, List.length_cons, List.length_nil]
    omega
  simp only [boundedAppend, lastN, List.drop_append_of_le_length hle]
  simp

/-- Claim C4: for every capacity-`C` bounded log and every sequence of more
than `C` appends (from any starting state), the resulting log is exactly the
last `C` appended items in append order, and no single append-then-trim step
ever leaves more than `C` entries.  The logs of the program (`live_trades`
cap 200, `dark_pool_prints` cap 100, `alert_log` cap 50) are mutated only by
`boundedAppend` (see `trigger_alert` and `on_message_step`). -/
theorem C4_bounded_log {α : Type} (cap : ℕ) (init : List α) (x : α)
    (items : List α) (h : cap < items.length) :
    List.foldl (boundedAppend cap) init items = lastN cap items ∧
    (boundedAppend cap init x).length ≤ cap := by
  refine ⟨?_, length_boundedAppend_le cap init x⟩
  rw [foldl_boundedAppend cap init items (by rintro rfl; simp at h),
    lastN_append_of_le cap init items (Nat.le_of_lt h)]

/-- Witness for C4 at capacity 2 and three appends. -/
theorem C4_bounded_log_witness :
    List.foldl (boundedAppend 2) [] [1, 2, 3] = lastN 2 [1, 2, 3] ∧
    (boundedAppend 2 ([] : List ℕ) 9).length ≤ 2 :=
  C4_bounded_log 2 [] 9 [1, 2, 3] (by decide)

/-- Claim C5: an event with `ev = "T"` and `size < 15000` is appended to
neither log; one with `size ≥ 15000` is appended to `live_trades` (cap 200),
and additionally to `dark_pool_prints` (cap 100) exactly when its venue code
`x` equals 4. -/
theorem C5_classifier (st : FeedState) (m : TradeMsg) (hev : m.ev = "T") :
    (m.s < 15000 → on_message_step st m = st) ∧
    (15000 ≤ m.s →
      (on_message_step st m).live_trades
          = boundedAppend 200 st.live_trades (mkTradeRecord m) ∧
      mkTradeRecord m ∈ (on_message_step st m).live_trades ∧
      (m.x = some 4 →
        (on_message_step st m).dark_pool_prints
            = boundedAppend 100 st.dark_pool_prints (mkTradeRecord m) ∧
        mkTradeRecord m ∈ (on_message_step st m).dark_pool_prints) ∧
      (¬ m.x = some 4 →
        (on_message_step st m).dark_pool_prints = st.dark_pool_prints)) := by
  constructor
  · intro hlt
    unfold on_message_step
    rw [if_neg]
    rintro ⟨-, hge⟩
    omega
  · intro hge
    by_cases hx : m.x = some 4
    · have hstep : on_message_step st m =
          { live_trades := boundedAppend 200 st.live_trades (mkTradeRecord m)
            dark_pool_prints := boundedAppend 100 st.dark_pool_prints (mkTradeRecord m) } := by
        unfold on_message_step
        rw [if_pos ⟨hev, hge⟩, if_pos hx]
      rw [hstep]
      exact ⟨rfl, self_mem_boundedAppend 200 _ _ (by norm_num),
        fun _ => ⟨rfl, self_mem_boundedAppend 100 _ _ (by norm_num)⟩,
        fun hc => absurd hx hc⟩
    · have hstep : on_message_step st m =
          { live_trades := boundedAppend 200 st.live_trades (mkTradeRecord m)
            dark_pool_prints := st.dark_pool_prints } := by
        unfold on_message_step
        rw [if_pos ⟨hev, hge⟩, if_neg hx]
      rw [hstep]
      exact ⟨rfl, self_mem_boundedAppend 200 _ _ (by norm_num),
        fun hc => absurd hc hx, fun _ => rfl⟩

/-- Witness for C5: the three scenario events of the spec. -/
theorem C5_classifier_witness :
    on_message_step ⟨[], []⟩ ⟨"T", "SPY", 430, 14999, 0, some 4⟩ = ⟨[], []⟩ ∧
    mkTradeRecord ⟨"T", "SPY", 430, 15000, 0, some 4⟩ ∈
      (on_message_step ⟨[], []⟩ ⟨"T", "SPY", 430, 15000, 0, some 4⟩).live_trades ∧
    mkTradeRecord ⟨"T", "SPY", 430, 15000, 0, some 4⟩ ∈
      (on_message_step ⟨[], []⟩ ⟨"T", "SPY", 430, 15000, 0, some 4⟩).dark_pool_prints ∧
    (on_message_step ⟨[], []⟩ ⟨"T", "SPY", 430, 20000, 0, some 1⟩).live_trades
        = boundedAppend 200 [] (mkTradeRecord ⟨"T", "SPY", 430, 20000, 0, some 1⟩) ∧
    (on_message_step ⟨[], []⟩ ⟨"T", "SPY", 430, 20000, 0, some 1⟩).dark_pool_prints
        = [] := by
  refine ⟨(C5_classifier ⟨[], []⟩ _ rfl).1 (by decide), ?_, ?_, ?_, ?_⟩
  · exact ((C5_classifier ⟨[], []⟩ _ rfl).2 (by decide)).2.1
  · exact (((C5_classifier ⟨[], []⟩ _ rfl).2 (by decide)).2.2.1 rfl).2
  · exact ((C5_classifier ⟨[], []⟩ _ rfl).2 (by decide)).1
  · exact ((C5_classifier ⟨[], []⟩ _ rfl).2 (by decide)).2.2.2 (by decide)

/-! ## Concrete inputs used by witnesses and counterexamples -/

/-- A fixed "today" expiration string. -/
def dayA : String := "2099-01-02"

/-- A contract passing the OI/IV filter, not unusual (volume ≤ OI). -/
def cPass : OptionContract := ⟨100, OptType.Call, 1/5, some 100, some 50⟩

/-- A contract failing the OI/IV filter (oi = 5 < 10) whose volume exceeds
its positive open interest. -/
def cLowOI : OptionContract := ⟨100, OptType.Call, 1/5, some 5, some 10⟩

/-- A contract passing the filter with volume 50 > oi 40 (ratio 1.25). -/
def cUnusual : OptionContract := ⟨100, OptType.Call, 1/5, some 40, some 50⟩

/-- The Put leg of the spec's cancellation scenario. -/
def cScenPut : OptionContract := ⟨500, OptType.Put, 1/5, some 1000, some 200⟩

/-- Snapshot with one filter-passing contract and one filtered-out contract
that meets the claim C1 condition `oi > 0 ∧ vol > oi`. -/
def snapA : ChainSnapshot := ⟨500, [dayA], [cPass, cLowOI], true, true⟩

/-- Snapshot whose single contract is flagged unusual. -/
def snapB : ChainSnapshot := ⟨500, [dayA], [cUnusual], true, true⟩

/-- Snapshot whose contracts are all removed by the OI/IV filter. -/
def snapC : ChainSnapshot := ⟨500, [dayA], [cLowOI], true, true⟩

/-- Snapshot with no expiration listed for today. -/
def snapD : ChainSnapshot := ⟨500, [], [cPass], true, true⟩

/-! ## Inversion of the success branch -/

theorem compute_success_inv {today : String} {s : ChainSnapshot}
    {agg : List GexRow} {spot : ℚ} {tot : ℝ} {w : GexRow}
    {u : Option (List UnusualRow)}
    (h : compute_0dte_gex_and_unusual today s
        = GexResult.success agg spot tot w u) :
    agg = aggregate (dataRows s.spot s.contracts) ∧ spot = s.spot ∧
    tot = totalGexOf (dataRows s.spot s.contracts) ∧
    maxWallOf (aggregate (dataRows s.spot s.contracts)) = some w ∧
    u = (if (unusualRows s.spot s.contracts).isEmpty then Option.none
         else some (unusualRows s.spot s.contracts)) := by
  unfold compute_0dte_gex_and_unusual at h
  split at h
  · exact absurd h (by simp)
  · split at h
    · exact absurd h (by simp)
    · split at h
      · exact absurd h (by simp)
      · split at h
        next heq => exact absurd h (by simp)
        next m heq =>
          injection h with h1 h2 h3 h4 h5
          exact ⟨h1.symm, h2.symm, h3.symm, h4 ▸ heq, h5.symm⟩

/-! ## Claims C2, C3, C6 -/

/-- Claim C2: a contract with `openInterest < 10` or `impliedVolatility ≤ 0.01`
contributes to no GexRow: deleting it from the chain leaves the whole
per-strike aggregate (both `gex` and the open-interest sums) unchanged. -/
theorem C2_filtered_out (spot : ℚ) (l1 l2 : List OptionContract)
    (c : OptionContract) (h : excluded c = true) :
    aggregate (dataRows spot (l1 ++ c :: l2))
      = aggregate (dataRows spot (l1 ++ l2)) := by
  unfold dataRows
  rw [List.filter_append, List.filter_append, List.filter_cons_of_neg (by simp [h])]

/-- Witness for C2: removing the filtered-out contract `cLowOI` leaves the
aggregate unchanged. -/
theorem C2_filtered_out_witness :
    excluded cLowOI = true ∧
    aggregate (dataRows 500 ([cPass] ++ cLowOI :: []))
      = aggregate (dataRows 500 ([cPass] ++ [])) :=
  ⟨by decide, C2_filtered_out 500 [cPass] [] cLowOI (by decide)⟩

/-- Claim C3: for a filter-passing contract, a Put's contribution is the
negation of the unsigned formula `gamma · oi · 100 · spot² · 0.01` and a
Call's is that formula unnegated; a Call and a Put at one strike with equal
implied volatility and open interest yield an aggregated `gex` of exactly 0
at that strike. -/
theorem C3_put_sign (spot : ℚ) (c : OptionContract)
    (hpass : excluded c = false) (K iv oi vc vp : ℚ)
    (hoi : 10 ≤ oi) (hiv : 1/100 < iv) :
    (c.type = OptType.Put →
      gexOf spot c = -(gammaBS spot c.strike c.impliedVolatility
        * (oiOf c : ℝ) * 100 * (spot : ℝ) ^ 2 * (1/100))) ∧
    (c.type = OptType.Call →
      gexOf spot c = gammaBS spot c.strike c.impliedVolatility
        * (oiOf c : ℝ) * 100 * (spot : ℝ) ^ 2 * (1/100)) ∧
    aggregate (dataRows spot
        [⟨K, OptType.Call, iv, some oi, some vc⟩,
         ⟨K, OptType.Put, iv, some oi, some vp⟩])
      = [⟨K, 0, oi + oi⟩] := by
  refine ⟨fun ht => by simp [gexOf, ht], fun ht => by simp [gexOf, ht], ?_⟩
  have hex : ∀ t v, excluded ⟨K, t, iv, some oi, some v⟩ = false := by
    intro t v
    simp only [excluded, oiOf, Option.getD_some, decide_eq_false_iff_not,
      not_or, not_lt, not_le]
    exact ⟨hoi, hiv⟩
  have hfil : ([⟨K, OptType.Call, iv, some oi, some vc⟩,
      ⟨K, OptType.Put, iv, some oi, some vp⟩].filter
        fun c => !excluded c)
      = [⟨K, OptType.Call, iv, some oi, some vc⟩,
         ⟨K, OptType.Put, iv, some oi, some vp⟩] := by
    simp [List.filter_cons, hex]
  unfold dataRows
  rw [hfil]
  have hstr : strikesOf ((([⟨K, OptType.Call, iv, some oi, some vc⟩,
      ⟨K, OptType.Put, iv, some oi, some vp⟩] : List OptionContract)).map
        (mkDataRow spot)) = [K] := by
    simp [strikesOf, mkDataRow, List.dedup_cons_of_mem,
      List.insertionSort, List.orderedInsert]
  unfold aggregate
  rw [hstr]
  simp only [List.map_cons, List.map_nil, List.filter, mkDataRow, decide_True,
    List.sum_cons, List.sum_nil]
  refine congrArg (· :: []) ?_
  have hg : gexOf spot (⟨K, OptType.Put, iv, some oi, some vp⟩ : OptionContract)
      = -gexOf spot (⟨K, OptType.Call, iv, some oi, some vc⟩ : OptionContract) := by
    simp [gexOf, oiOf]
  refine congrArg₂ (fun a b => GexRow.mk K a b) ?_ ?_
  · rw [hg]
    ring
  · simp [oiOf]

/-- Witness for C3 at the spec scenario spot 500, strike 500, iv 0.20,
oi 1000. -/
theorem C3_put_sign_witness :
    gexOf 500 cScenPut = -(gammaBS 500 cScenPut.strike cScenPut.impliedVolatility
      * (oiOf cScenPut : ℝ) * 100 * (500 : ℝ) ^ 2 * (1/100)) ∧
    aggregate (dataRows 500
        [⟨500, OptType.Call, 1/5, some 1000, some 200⟩,
         ⟨500, OptType.Put, 1/5, some 1000, some 200⟩])
      = [⟨500, 0, 1000 + 1000⟩] :=
  ⟨(C3_put_sign 500 cScenPut (by decide) 500 (1/5) 1000 200 200
      (by decide) (by decide)).1 rfl,
   (C3_put_sign 500 cScenPut (by decide) 500 (1/5) 1000 200 200
      (by decide) (by decide)).2.2⟩

theorem gexresult_failure_shape (r : GexResult) (h : r.isSuccess = false) :
    r.toTuple.head? = some PyVal.none ∧ r.reasonOf.isSome = true := by
  cases r <;> simp_all [GexResult.isSuccess, GexResult.toTuple, GexResult.reasonOf]

/-- Claim C6: the function is total (every branch returns a value rather than
raising); when today's date is not among the chain's expirations it returns
the `No 0DTE contracts today` result without touching the gamma pipeline,
and every failure result carries `None` in the GexRow slot together with a
reason string. -/
theorem C6_failures_are_values (today : String) (s : ChainSnapshot) :
    (¬ today ∈ s.expirations →
      compute_0dte_gex_and_unusual today s = GexResult.noZeroDte s.spot ∧
      (GexResult.noZeroDte s.spot).reasonOf = some "No 0DTE contracts today") ∧
    ((compute_0dte_gex_and_unusual today s).isSuccess = false →
      (compute_0dte_gex_and_unusual today s).toTuple.head? = some PyVal.none ∧
      ((compute_0dte_gex_and_unusual today s).reasonOf).isSome = true) := by
  constructor
  · intro h
    refine ⟨?_, rfl⟩
    unfold compute_0dte_gex_and_unusual
    rw [if_pos h]
  · exact gexresult_failure_shape _

/-- Witness for C6: a snapshot listing no expiration for today. -/
theorem C6_failures_witness :
    compute_0dte_gex_and_unusual dayA snapD = GexResult.noZeroDte snapD.spot ∧
    (GexResult.noZeroDte snapD.spot).reasonOf = some "No 0DTE contracts today" ∧
    (compute_0dte_gex_and_unusual dayA snapD).toTuple.head? = some PyVal.none :=
  ⟨((C6_failures_are_values dayA snapD).1 (by decide)).1,
   ((C6_failures_are_values dayA snapD).1 (by decide)).2,
   ((C6_failures_are_values dayA snapD).2 rfl).1⟩

/-! ## Summation over the per-strike grouping -/

theorem sum_map_filter_not_add {α γ : Type} [AddCommMonoid γ]
    (p : α → Bool) (f : α → γ) (l : List α) :
    ((l.filter p).map f).sum + ((l.filter fun a => !p a).map f).sum
      = (l.map f).sum := by
  induction l with
  | nil => simp
  | cons x xs ih =>
    by_cases hx : p x
    · rw [List.filter_cons_of_pos hx, List.filter_cons_of_neg (by simp [hx])]
      simp only [List.map_cons, List.sum_cons]
      rw [add_assoc, ih]
    · have hx' : p x = false := Bool.eq_false_iff.mpr hx
      rw [List.filter_cons_of_neg (by simp [hx']),
        List.filter_cons_of_pos (by simp [hx'])]
      simp only [List.map_cons, List.sum_cons]
      rw [add_left_comm, ih]

theorem sum_fiber {α β γ : Type} [DecidableEq β] [AddCommMonoid γ]
    (key : α → β) (f : α → γ) :
    ∀ (ks : List β) (l : List α), ks.Nodup → (∀ a ∈ l, key a ∈ ks) →
      (ks.map fun k => ((l.filter fun a => key a = k).map f).sum).sum
        = (l.map f).sum := by
  intro ks
  induction ks with
  | nil =>
    intro l _ hcov
    have hl : l = [] := List.eq_nil_iff_forall_not_mem.2 fun a ha => by
      simpa using hcov a ha
    subst hl
    simp
  | cons k ks ih =>
    intro l hnd hcov
    have hknotin : ¬ k ∈ ks := (List.nodup_cons.1 hnd).1
    have hfibers : ∀ k' ∈ ks,
        ((l.filter fun a => key a = k').map f).sum
          = (((l.filter fun a => !(key a = k)).filter
              fun a => key a = k').map f).sum := by
      intro k' hk'
      have hkk : k' ≠ k := fun hE => hknotin (hE ▸ hk')
      rw [List.filter_filter]
      refine congrArg (fun t => (List.map f t).sum) (List.filter_congr ?_)
      intro a _
      by_cases ha : key a = k'
      · simp [ha, hkk]
      · simp [ha]
    rw [List.map_cons, List.sum_cons,
      List.map_congr_left hfibers,
      ih (l.filter fun a => !(key a = k)) (List.nodup_cons.1 hnd).2
        (fun a ha => by
          rcases List.mem_filter.1 ha with ⟨hal, hak⟩
          rcases hcov a hal with hmem
          simp only [List.mem_cons] at hmem
          rcases hmem with hE | hin
          · exact absurd (by simpa using hE) (by simpa using hak)
          · exact hin),
      sum_map_filter_not_add (fun a => key a = k) f l]

theorem sum_aggregate_gex (data : List DataRow) :
    ((aggregate data).map GexRow.gex).sum = (data.map DataRow.gex).sum := by
  unfold aggregate
  rw [List.map_map]
  have hnd : (strikesOf data).Nodup :=
    ((List.perm_insertionSort _ _).nodup_iff).2 (List.nodup_dedup _)
  have hcov : ∀ d ∈ data, d.strike ∈ strikesOf data := by
    intro d hd
    unfold strikesOf
    rw [(List.perm_insertionSort _ _).mem_iff]
    exact List.mem_dedup.2 (List.mem_map_of_mem _ hd)
  exact sum_fiber DataRow.strike DataRow.gex (strikesOf data) data hnd hcov

/-! ## The max-wall selection -/

theorem maxWallOf_eq_none {l : List GexRow} : maxWallOf l = Option.none ↔ l = [] := by
  cases l with
  | nil => simp [maxWallOf]
  | cons r rs =>
    constructor
    · intro h
      rw [maxWallOf] at h
      cases hrs : maxWallOf rs with
      | none => rw [hrs] at h; exact absurd h (by simp [Option.elim])
      | some m =>
        rw [hrs] at h
        by_cases hc : |r.gex| < |m.gex| <;> simp [Option.elim, hc] at h
    · intro h
      exact absurd h (by simp)

theorem maxWallOf_spec {l : List GexRow} {w : GexRow}
    (h : maxWallOf l = some w) :
    (∀ r ∈ l, |r.gex| ≤ |w.gex|) ∧
    ∃ n, ∃ hn : n < l.length, l.get ⟨n, hn⟩ = w ∧
      ∀ x ∈ l.take n, |x.gex| < |w.gex| := by
  induction l generalizing w with
  | nil => exact absurd h (by simp [maxWallOf])
  | cons r rs ih =>
    rw [maxWallOf] at h
    cases hrs : maxWallOf rs with
    | none =>
      have hrsnil : rs = [] := maxWallOf_eq_none.1 hrs
      rw [hrs] at h
      have hw : r = w := by simpa [Option.elim] using h
      subst hw
      subst hrsnil
      refine ⟨by simp, 0, by simp, by simp, by simp⟩
    | some m =>
      rw [hrs] at h
      simp only [Option.elim] at h
      rcases ih hrs with ⟨hmax, n, hn, hget, htake⟩
      by_cases hc : |r.gex| < |m.gex|
      · rw [if_pos hc] at h
        have hw : m = w := by simpa using h
        subst hw
        refine ⟨?_, n + 1, by simpa using Nat.succ_lt_succ hn,
          by simpa using hget, ?_⟩
        · intro x hx
          rcases List.mem_cons.1 hx with hE | hin
          · exact hE ▸ le_of_lt hc
          · exact hmax x hin
        · intro x hx
          rw [List.take_succ_cons] at hx
          rcases List.mem_cons.1 hx with hE | hin
          · exact hE ▸ hc
          · exact htake x hin
      · rw [if_neg hc] at h
        have hw : r = w := by simpa using h
        subst hw
        have hmle : |m.gex| ≤ |r.gex| := not_lt.1 hc
        refine ⟨?_, 0, by simp, by simp, by simp⟩
        intro x hx
        rcases List.mem_cons.1 hx with hE | hin
        · exact hE ▸ le_refl _
        · exact le_trans (hmax x hin) hmle

theorem aggregate_pairwise_lt (data : List DataRow) :
    List.Pairwise (fun a b : GexRow => a.strike < b.strike) (aggregate data) := by
  unfold aggregate
  rw [List.pairwise_map]
  have h1 : List.Pairwise (· ≤ ·) (strikesOf data) :=
    List.sorted_insertionSort _ _
  have h2 : List.Pairwise (· ≠ ·) (strikesOf data) :=
    ((List.perm_insertionSort _ _).nodup_iff).2 (List.nodup_dedup _)
  exact (h1.and h2).imp fun hab => lt_of_le_of_ne hab.1 hab.2

/-! ## Components of the success result on `snapB`, used by witnesses -/

noncomputable def dataB : List DataRow := dataRows snapB.spot snapB.contracts

noncomputable def aggB : List GexRow := aggregate dataB

noncomputable def totB : ℝ := totalGexOf dataB

noncomputable def wallB : GexRow := (maxWallOf aggB).getD ⟨0, 0, 0⟩

def uB : Option (List UnusualRow) := some (unusualRows 500 [cUnusual])

/-! ## Claims C1, C7, C8, C9, C10 -/

/-- Claim C1 as stated is false: `cLowOI` has `openInterest = 5 > 0` and
`volume = 10 > openInterest`, yet the successful computation on `snapA`
emits no UnusualRow at all, because the `continue` of the OI/IV filter runs
before the unusual-activity test. -/
theorem C1_counterexample :
    0 < oiOf cLowOI ∧ oiOf cLowOI < volOf cLowOI ∧ cLowOI ∈ snapA.contracts ∧
    (compute_0dte_gex_and_unusual dayA snapA).isSuccess = true ∧
    (compute_0dte_gex_and_unusual dayA snapA).unusualComponent = Option.none :=
  ⟨by decide, by decide, by decide, rfl, rfl⟩

/-- Claim C1 amended: on every successful computation the UnusualRow set
contains exactly the contracts that pass the OI/IV filter AND have
`openInterest > 0` and `volume > openInterest`, in chain order, each with
`ratio = round(volume/openInterest, 2)`. -/
theorem C1_unusual_rows (today : String) (s : ChainSnapshot)
    (agg : List GexRow) (spot : ℚ) (tot : ℝ) (w : GexRow)
    (u : Option (List UnusualRow))
    (h : compute_0dte_gex_and_unusual today s
        = GexResult.success agg spot tot w u) :
    u.getD [] = (s.contracts.filter fun c =>
        !excluded c ∧ 0 < oiOf c ∧ oiOf c < volOf c).map (mkUnusualRow s.spot) ∧
    ∀ r ∈ u.getD [], r.ratio = round2 (r.volume / r.oi) := by
  rcases compute_success_inv h with ⟨-, -, -, -, hu⟩
  have hud : u.getD [] = unusualRows s.spot s.contracts := by
    rw [hu]
    by_cases he : (unusualRows s.spot s.contracts).isEmpty
    · rw [if_pos he]
      exact (List.isEmpty_iff.1 he).symm
    · rw [if_neg he]
      rfl
  constructor
  · rw [hud]
    unfold unusualRows
    refine congrArg _ (List.filter_congr fun c _ => ?_)
    exact decide_eq_decide.2 (by tauto)
  · intro r hr
    rw [hud] at hr
    rcases List.mem_map.1 hr with ⟨c, -, hc⟩
    subst hc
    rfl

/-- Witness for the amended C1 on the single-contract snapshot `snapB`
(volume 50, oi 40, ratio 1.25). -/
theorem C1_unusual_rows_witness :
    uB.getD [] = (snapB.contracts.filter fun c =>
        !excluded c ∧ 0 < oiOf c ∧ oiOf c < volOf c).map
          (mkUnusualRow snapB.spot) ∧
    ∀ r ∈ uB.getD [], r.ratio = round2 (r.volume / r.oi) :=
  C1_unusual_rows dayA snapB aggB 500 totB wallB uB rfl

/-- Claim C7: on success, `totalGex` equals the sum of the returned GexRows'
`gex` values, which equals the sum of the per-contract signed contributions
of the filter-passing contracts. -/
theorem C7_total_gex (today : String) (s : ChainSnapshot)
    (agg : List GexRow) (spot : ℚ) (tot : ℝ) (w : GexRow)
    (u : Option (List UnusualRow))
    (h : compute_0dte_gex_and_unusual today s
        = GexResult.success agg spot tot w u) :
    tot = (agg.map GexRow.gex).sum ∧
    tot = ((dataRows s.spot s.contracts).map DataRow.gex).sum := by
  rcases compute_success_inv h with ⟨hagg, -, htot, -, -⟩
  refine ⟨?_, ?_⟩
  · rw [htot, hagg]
    rfl
  · rw [htot]
    unfold totalGexOf
    exact sum_aggregate_gex _

/-- Witness for C7 on `snapB`. -/
theorem C7_total_gex_witness :
    totB = (aggB.map GexRow.gex).sum ∧
    totB = ((dataRows snapB.spot snapB.contracts).map DataRow.gex).sum :=
  C7_total_gex dayA snapB aggB 500 totB wallB uB rfl

/-- Claim C8: on success, `maxWall` attains the maximum absolute `gex` among
the returned GexRows; the rows are in strictly ascending strike order and
every row strictly before `maxWall` has strictly smaller absolute `gex`, so
the tie-break takes the first strike in ascending order and the choice is
deterministic. -/
theorem C8_max_wall (today : String) (s : ChainSnapshot)
    (agg : List GexRow) (spot : ℚ) (tot : ℝ) (w : GexRow)
    (u : Option (List UnusualRow))
    (h : compute_0dte_gex_and_unusual today s
        = GexResult.success agg spot tot w u) :
    List.Pairwise (fun a b : GexRow => a.strike < b.strike) agg ∧
    (∀ r ∈ agg, |r.gex| ≤ |w.gex|) ∧
    ∃ n, ∃ hn : n < agg.length, agg.get ⟨n, hn⟩ = w ∧
      ∀ x ∈ agg.take n, |x.gex| < |w.gex| := by
  rcases compute_success_inv h with ⟨hagg, -, -, hmax, -⟩
  subst hagg
  exact ⟨aggregate_pairwise_lt _, (maxWallOf_spec hmax).1, (maxWallOf_spec hmax).2⟩

/-- Witness for C8 on `snapB`. -/
theorem C8_max_wall_witness :
    List.Pairwise (fun a b : GexRow => a.strike < b.strike) aggB ∧
    (∀ r ∈ aggB, |r.gex| ≤ |wallB.gex|) ∧
    ∃ n, ∃ hn : n < aggB.length, aggB.get ⟨n, hn⟩ = wallB ∧
      ∀ x ∈ aggB.take n, |x.gex| < |wallB.gex| :=
  C8_max_wall dayA snapB aggB 500 totB wallB uB rfl

/-- Claim C9: the two informational failure paths return 4-element tuples
`(None, spot, reason, None)`, while the success and exception paths return
5-element tuples, the exception path reporting spot as 0 — so among failure
results only the exception path has a fifth component. -/
theorem C9_tuple_shapes (today : String) (s : ChainSnapshot) :
    ((compute_0dte_gex_and_unusual today s).isSuccess = false →
      ((compute_0dte_gex_and_unusual today s).toTuple.length = 5 ↔
        (compute_0dte_gex_and_unusual today s).isError = true)) ∧
    (∀ q, compute_0dte_gex_and_unusual today s = GexResult.noZeroDte q →
      (compute_0dte_gex_and_unusual today s).toTuple
        = [PyVal.none, PyVal.rat q, PyVal.str "No 0DTE contracts today",
           PyVal.none]) ∧
    (∀ q, compute_0dte_gex_and_unusual today s = GexResult.noVolOi q →
      (compute_0dte_gex_and_unusual today s).toTuple
        = [PyVal.none, PyVal.rat q, PyVal.str "No volume/OI data",
           PyVal.none]) ∧
    (∀ m, compute_0dte_gex_and_unusual today s = GexResult.error m →
      (compute_0dte_gex_and_unusual today s).toTuple
        = [PyVal.none, PyVal.rat 0, PyVal.str ("Error: " ++ m),
           PyVal.none, PyVal.none]) ∧
    (∀ agg sp tot w u, compute_0dte_gex_and_unusual today s
        = GexResult.success agg sp tot w u →
      (compute_0dte_gex_and_unusual today s).toTuple.length = 5) := by
  cases hr : compute_0dte_gex_and_unusual today s with
  | noZeroDte q => simp [GexResult.toTuple, GexResult.isSuccess, GexResult.isError]
  | noVolOi q => simp [GexResult.toTuple, GexResult.isSuccess, GexResult.isError]
  | error m => simp [GexResult.toTuple, GexResult.isSuccess, GexResult.isError]
  | success agg sp tot w u =>
    cases u <;>
      simp [GexResult.toTuple, GexResult.isSuccess, GexResult.isError]

/-- Witness for C9: the all-contracts-filtered snapshot takes the exception
path and yields the 5-element tuple with spot reported as 0. -/
theorem C9_tuple_shapes_witness :
    (compute_0dte_gex_and_unusual dayA snapC).toTuple
      = [PyVal.none, PyVal.rat 0, PyVal.str ("Error: " ++ "'strike'"),
         PyVal.none, PyVal.none] :=
  (C9_tuple_shapes dayA snapC).2.2.2.1 "'strike'" rfl

/-- Claim C10: when today's chain is present with both columns and non-empty
but every contract is excluded by the OI/IV filter, the groupby on the empty
`data` frame raises `KeyError('strike')`, so the call returns the generic
wrapped error (reason starting `Error: `), not an empty GexRow set. -/
theorem C10_all_filtered_error (today : String) (s : ChainSnapshot)
    (h1 : today ∈ s.expirations) (h2 : s.contracts ≠ [])
    (h3 : s.hasVolumeColumn = true) (h4 : s.hasOpenInterestColumn = true)
    (h5 : ∀ c ∈ s.contracts, excluded c = true) :
    compute_0dte_gex_and_unusual today s = GexResult.error "'strike'" ∧
    (compute_0dte_gex_and_unusual today s).isSuccess = false ∧
    (compute_0dte_gex_and_unusual today s).reasonOf
      = some ("Error: " ++ "'strike'") := by
  have hdata : dataRows s.spot s.contracts = [] := by
    unfold dataRows
    rw [List.filter_eq_nil_iff.2 fun a ha => by simp [h5 a ha]]
    rfl
  have hcmp : compute_0dte_gex_and_unusual today s
      = GexResult.error "'strike'" := by
    unfold compute_0dte_gex_and_unusual
    rw [if_neg (by simpa using h1), if_neg (by simp [h2, h3, h4]),
      if_pos (by simp [hdata])]
  exact ⟨hcmp, by rw [hcmp]; rfl, by rw [hcmp]; rfl⟩

/-- Witness for C10 on `snapC`, whose single contract fails the filter. -/
theorem C10_all_filtered_error_witness :
    compute_0dte_gex_and_unusual dayA snapC = GexResult.error "'strike'" ∧
    (compute_0dte_gex_and_unusual dayA snapC).isSuccess = false ∧
    (compute_0dte_gex_and_unusual dayA snapC).reasonOf
      = some ("Error: " ++ "'strike'") :=
  C10_all_filtered_error dayA snapC (by decide) (by decide) rfl rfl (by decide)

end StockScreener
